import Mathlib

/-!
Verification development for YTLoader (`src/Versions/Streamlit/app.py`).

The file shallowly embeds the parts of `app.py` the specification talks
about:

* `is_valid_playlist_url` (app.py lines 71-74): the regex
  `^(https?://)?(www\.)?(youtube\.com|youtu\.?be)/playlist\?list=([a-zA-Z0-9_-]+)`
  checked with `re.match` (prefix match, no end anchor).  The regex is
  embedded as an executable backtracking matcher over the character list.
* the format-selection table of `download_videos` (lines 146, 153-173).
* the batch-download loop of `download_videos` (lines 124-283).  The
  external `yt_dlp` call for one video is modelled by an environment
  `env : ℕ → DlResult` giving, per video index, either an exception or a
  normal return together with whether the reported file exists on disk
  (`os.path.exists(filename)`, line 243).  The per-item console/status
  records become `Outcome`s; the Python `Set[int]` argument
  `selected_indices` is modelled as the list of its (distinct) elements,
  and `sorted(selected_indices)` as `List.insertionSort (· ≤ ·)` — on a
  duplicate-free list this is the unique ascending arrangement, hence
  faithful to Python's `sorted`.  Distinctness is carried as a
  `List.Nodup` hypothesis where the set cardinality matters.
* the session-state bookkeeping of `main` (lines 403-413, 484-486,
  496-506, 560-570): `selected_videos`, `video_data`, `video_urls`.
-/

namespace YTLoader

/-! ### Result of one `yt_dlp` download call (external collaborator) -/

/-- What one `ydl.extract_info(video_url, download=True)` call does for a
given video index: either it returns normally (and
`os.path.exists(ydl.prepare_filename(info))` is `fileExists`), or it
raises an exception with message `msg`. -/
inductive DlResult where
  | ok (fileExists : Bool)
  | exn (msg : String)
deriving DecidableEq

/-- Per-item status recorded by the loop body (app.py lines 241-258):
`success` for the `os.path.exists` branch, `fileNotCreated` for the
"File not created" branch, `error msg` for the `except` branch. -/
inductive Status where
  | success
  | fileNotCreated
  | error (msg : String)
deriving DecidableEq

/-- The per-item record the loop appends to the console (one SUCCESS /
FAILED / ERROR line per processed index). -/
structure Outcome where
  idx : ℕ
  status : Status
deriving DecidableEq

/-- Terminal classification printed after the loop (app.py lines
271-278). -/
inductive Classification where
  | fullSuccess
  | partialSuccess (failed : ℕ)
  | totalFailure
deriving DecidableEq

/-- Observable result of `download_videos`: the two early-error returns
(lines 127-129 and 178-180) or a finished batch with its outcome list,
`success_count`, `total_count`, terminal classification and the returned
boolean `success_count > 0` (line 283). -/
inductive DlReport where
  | noVideos
  | noSelection
  | finished (outcomes : List Outcome) (successCount totalCount : ℕ)
      (cls : Classification) (returned : Bool)
deriving DecidableEq

/-! ### The loop body (app.py lines 210-258) -/

/-- Outcome of one in-range iteration (lines 223-258): the `try` block
calls the extractor, then the `os.path.exists` check decides success;
the `except` block records the error message. -/
def itemOutcome (env : ℕ → DlResult) (idx : ℕ) : Outcome :=
  match env idx with
  | DlResult.ok fileExists =>
      ⟨idx, if fileExists then Status.success else Status.fileNotCreated⟩
  | DlResult.exn msg => ⟨idx, Status.error msg⟩

/-- The loop `for i, idx in enumerate(sorted(selected_indices))` with its
guard `if idx < len(video_urls)` (lines 210-211): out-of-range indices
produce no record at all. -/
def processItems (videoUrls : List String) (env : ℕ → DlResult) :
    List ℕ → List Outcome
  | [] => []
  | idx :: rest =>
      if idx < videoUrls.length then
        itemOutcome env idx :: processItems videoUrls env rest
      else processItems videoUrls env rest

/-- `success_count` accumulated by the loop (lines 175, 244). -/
def countSuccess (outcomes : List Outcome) : ℕ :=
  outcomes.countP fun o => decide (o.status = Status.success)

/-- Terminal classification (lines 271-278): `success_count ==
total_count` → full success; `elif success_count > 0` → partial success
announcing `total_count - success_count` failures; `else` → total
failure. -/
def classify (successCount totalCount : ℕ) : Classification :=
  if successCount = totalCount then Classification.fullSuccess
  else if 0 < successCount then
    Classification.partialSuccess (totalCount - successCount)
  else Classification.totalFailure

/-- `download_videos` (lines 124-283), with the external download calls
abstracted into `env` and the `selected_indices` set given as the list
of its elements.  Line 127: empty `video_urls` returns immediately;
lines 176-180: `total_count = len(selected_indices)`, zero returns
immediately; then the loop and the final summary. -/
def download_videos (videoUrls : List String) (selected : List ℕ)
    (env : ℕ → DlResult) : DlReport :=
  if videoUrls.isEmpty then DlReport.noVideos
  else if selected.length = 0 then DlReport.noSelection
  else
    let outcomes := processItems videoUrls env (selected.insertionSort (· ≤ ·))
    let s := countSuccess outcomes
    DlReport.finished outcomes s selected.length (classify s selected.length)
      (decide (0 < s))

/-! ### Format selection (app.py lines 146, 153-173) -/

/-- The `quality_map` dictionary lookup
`quality_map.get(quality, 'best[height<=720]/best')` (lines 166-173). -/
def quality_map_get (quality : String) : String :=
  if quality = "best" then "best[height<=1080]/best[height<=720]/best"
  else if quality = "1080p" then "best[height<=1080]"
  else if quality = "720p" then "best[height<=720]"
  else if quality = "480p" then "best[height<=480]"
  else if quality = "360p" then "best[height<=360]"
  else "best[height<=720]/best"

/-- The final `ydl_opts['format']` string (lines 153-173): the audio
branch depends on `self.ffmpeg_available`; the video branch is the
`quality_map` lookup. -/
def select_format (audioOnly ffmpegAvailable : Bool) (quality : String) : String :=
  if audioOnly then
    if ffmpegAvailable then "bestaudio/best" else "bestaudio[ext=m4a]/bestaudio/best"
  else quality_map_get quality

/-- Split a format string's characters at `/` into its alternatives. -/
def splitAlternatives : List Char → List (List Char)
  | [] => [[]]
  | c :: rest =>
      if c = '/' then [] :: splitAlternatives rest
      else
        match splitAlternatives rest with
        | [] => [[c]]
        | g :: gs => (c :: g) :: gs

/-- A yt-dlp format string is a `/`-separated list of alternatives tried
left to right.  "Falls back to best available" means there is more than
one alternative and the last one is the bare `best`. -/
def hasBestFallback (fmt : String) : Bool :=
  decide (2 ≤ (splitAlternatives fmt.data).length) &&
    ((splitAlternatives fmt.data).getLastD [] == ("best").data)

/-! ### URL validation (app.py lines 71-74)

The regex `^(https?://)?(www\.)?(youtube\.com|youtu\.?be)/playlist\?list=([a-zA-Z0-9_-]+)`
under `re.match`.  Each group of alternatives is embedded by its denoted
set of strings; `(https?://)?` denotes {"https://", "http://", ""},
`(www\.)?` denotes {"www.", ""}, and `(youtube\.com|youtu\.?be)` denotes
{"youtube.com", "youtu.be", "youtube"} — the optional dot in
`youtu\.?be` makes the bare string `youtube` match as well.  `re.match`
anchors at the start only, so anything may follow the first matched
character of group 4. -/

/-- The character class `[a-zA-Z0-9_-]`. -/
def isFormatChar (c : Char) : Bool := c.isAlphanum || c == '_' || c == '-'

/-- Strings denoted by `(https?://)?`. -/
def regexSchemes : List String := ["https://", "http://", ""]

/-- Strings denoted by `(www\.)?`. -/
def regexWww : List String := ["www.", ""]

/-- Strings denoted by `(youtube\.com|youtu\.?be)`. -/
def regexHosts : List String := ["youtube.com", "youtu.be", "youtube"]

/-- Drop an exact literal from the front of `s`, or fail. -/
def dropLit : List Char → List Char → Option (List Char)
  | [], s => some s
  | _ :: _, [] => none
  | p :: ps, c :: cs => if p = c then dropLit ps cs else none

/-- Match one alternative `p` then continue with `k` (one backtracking
branch of the regex). -/
def matchSeg (k : List Char → Bool) (p : String) (s : List Char) : Bool :=
  match dropLit p.data s with
  | some r => k r
  | none => false

/-- `([a-zA-Z0-9_-]+)` with no end anchor: at least one class character
must follow; the rest of the string is unconstrained. -/
def matchListId : List Char → Bool
  | c :: _ => isFormatChar c
  | [] => false

/-- The literal `/playlist\?list=` followed by the id group. -/
def matchAfterHost (s : List Char) : Bool :=
  matchSeg matchListId "/playlist?list=" s

/-- The host alternation, then the rest. -/
def matchHost (s : List Char) : Bool :=
  regexHosts.any fun h => matchSeg matchAfterHost h s

/-- The optional `www.`, then the rest. -/
def matchWww (s : List Char) : Bool :=
  regexWww.any fun w => matchSeg matchHost w s

/-- `is_valid_playlist_url` (app.py lines 71-74):
`re.match(playlist_pattern, url) is not None`. -/
def is_valid_playlist_url (url : String) : Bool :=
  regexSchemes.any fun p => matchSeg matchWww p url.data

/-- The URL shape exactly as the specification documents it: optional
`http`/`https` scheme, optional `www.`, host `youtube.com` or
`youtu.be`, path `/playlist`, query parameter `list=` followed by one or
more alphanumeric/`_`/`-` characters — and nothing else.  Stated from
the spec's words, to be compared with `is_valid_playlist_url`. -/
def spec_playlist_url_shape (url : String) : Bool :=
  regexSchemes.any fun scheme => regexWww.any fun w =>
    (["youtube.com", "youtu.be"] : List String).any fun host =>
      match dropLit (scheme.data ++ w.data ++ host.data ++ ("/playlist?list=").data) url.data with
      | some rest => !rest.isEmpty && rest.all isFormatChar
      | none => false

/-- Declarative characterization of what the source regex accepts (used
to state the corrected form of the validator claim): some choice of
scheme, `www.`, and host — `youtube` included — followed by
`/playlist?list=`, at least one class character, and an arbitrary
tail. -/
def regex_playlist_shape (url : String) : Prop :=
  ∃ scheme ∈ regexSchemes, ∃ w ∈ regexWww, ∃ host ∈ regexHosts,
    ∃ c rest, isFormatChar c = true ∧
      url.data = scheme.data ++ w.data ++ host.data ++
        ("/playlist?list=").data ++ c :: rest

/-! ### Session state (app.py `main`, lines 403-413, 484-486, 496-506,
560-570) -/

/-- One element of `st.session_state.video_data` (lines 472-479); the
thumbnail image is dropped (opaque external data). -/
structure VideoData where
  index : ℕ
  id : String
  title : String
  duration : String
  url : String
deriving DecidableEq

/-- The session-state fields the selection and playlist bookkeeping
touches.  `selected_videos` is a Python set of indices, modelled as the
list of its elements. -/
structure SessionState where
  selected_videos : List ℕ
  video_data : List VideoData
  video_urls : List String
deriving DecidableEq

/-- Initial session state (lines 403-413). -/
def init_session_state : SessionState :=
  { selected_videos := [], video_data := [], video_urls := [] }

/-- The Select All button (line 497):
`selected_videos = set(range(len(video_data)))`. -/
def select_all (s : SessionState) : SessionState :=
  { s with selected_videos := List.range s.video_data.length }

/-- The Clear All button (line 503): `selected_videos = set()`. -/
def clear_all (s : SessionState) : SessionState :=
  { s with selected_videos := [] }

/-- The selection form submit (lines 560-569): replace the selection
wholesale with the set read back from the checkboxes. -/
def update_selections (s : SessionState) (newSel : List ℕ) : SessionState :=
  { s with selected_videos := newSel }

/-- Storing a freshly resolved playlist (lines 485-486):
`st.session_state.video_data = video_data` and
`st.session_state.video_urls = video_urls`.  No other session-state
field is written on this path. -/
def store_playlist (s : SessionState) (data : List VideoData)
    (urls : List String) : SessionState :=
  { s with video_data := data, video_urls := urls }

/-! ### Structural lemmas about the loop -/

lemma itemOutcome_idx (env : ℕ → DlResult) (idx : ℕ) :
    (itemOutcome env idx).idx = idx := by
  cases h : env idx <;> simp [itemOutcome, h]

lemma processItems_eq_map (videoUrls : List String) (env : ℕ → DlResult)
    (l : List ℕ) :
    processItems videoUrls env l =
      (l.filter fun idx => decide (idx < videoUrls.length)).map (itemOutcome env) := by
  induction l with
  | nil => rfl
  | cons a l ih =>
      by_cases h : a < videoUrls.length <;> simp [processItems, h, ih, List.filter_cons]

lemma processItems_map_idx (videoUrls : List String) (env : ℕ → DlResult)
    (l : List ℕ) :
    (processItems videoUrls env l).map Outcome.idx =
      l.filter fun idx => decide (idx < videoUrls.length) := by
  rw [processItems_eq_map, List.map_map]
  have : Outcome.idx ∘ itemOutcome env = fun idx => idx := by
    funext idx; exact itemOutcome_idx env idx
  rw [this, List.map_id']

lemma download_videos_run (videoUrls : List String) (selected : List ℕ)
    (env : ℕ → DlResult) (h1 : videoUrls ≠ []) (h2 : selected ≠ []) :
    download_videos videoUrls selected env =
      DlReport.finished
        (processItems videoUrls env (selected.insertionSort (· ≤ ·)))
        (countSuccess (processItems videoUrls env (selected.insertionSort (· ≤ ·))))
        selected.length
        (classify
          (countSuccess (processItems videoUrls env (selected.insertionSort (· ≤ ·))))
          selected.length)
        (decide (0 < countSuccess
          (processItems videoUrls env (selected.insertionSort (· ≤ ·))))) := by
  have h1' : videoUrls.isEmpty = false := by
    simp [List.isEmpty_iff, h1]
  have h2' : ¬ selected.length = 0 := by
    simp [List.length_eq_zero, h2]
  simp [download_videos, h1', h2']

lemma insertionSort_all_in_range (videoUrls : List String) (selected : List ℕ)
    (hlt : ∀ idx ∈ selected, idx < videoUrls.length) :
    ((selected.insertionSort (· ≤ ·)).filter
        fun idx => decide (idx < videoUrls.length)) =
      selected.insertionSort (· ≤ ·) :=
  List.filter_eq_self.mpr fun a ha => by
    simpa using hlt a ((List.mem_insertionSort (· ≤ ·)).mp ha)

lemma urls_ne_nil_of_selected (videoUrls : List String) (selected : List ℕ)
    (hne : selected ≠ []) (hlt : ∀ idx ∈ selected, idx < videoUrls.length) :
    videoUrls ≠ [] := by
  obtain ⟨a, ha⟩ := List.exists_mem_of_ne_nil selected hne
  exact List.length_pos.mp (Nat.lt_of_le_of_lt (Nat.zero_le a) (hlt a ha))

/-! ### Theorems for the claims -/

/-- C1: for every non-empty selection whose indices are all in range,
`download_videos` records exactly one outcome per selected index — the
outcome count equals the selection's cardinality, and the recorded
indices are exactly the selected ones, none repeated. -/
theorem download_one_outcome_per_selected_index
    (videoUrls : List String) (selected : List ℕ) (env : ℕ → DlResult)
    (hnd : selected.Nodup) (hne : selected ≠ [])
    (hlt : ∀ idx ∈ selected, idx < videoUrls.length) :
    ∃ outcomes s c r,
      download_videos videoUrls selected env =
        DlReport.finished outcomes s selected.length c r ∧
      outcomes.length = selected.length ∧
      (outcomes.map Outcome.idx).Perm selected ∧
      (outcomes.map Outcome.idx).Nodup := by
  have hu : videoUrls ≠ [] := urls_ne_nil_of_selected videoUrls selected hne hlt
  have hmap : (processItems videoUrls env
      (selected.insertionSort (· ≤ ·))).map Outcome.idx =
      selected.insertionSort (· ≤ ·) := by
    rw [processItems_map_idx, insertionSort_all_in_range videoUrls selected hlt]
  refine ⟨_, _, _, _, download_videos_run videoUrls selected env hu hne, ?_, ?_, ?_⟩
  · have := congrArg List.length hmap
    simpa [List.length_insertionSort] using this
  · rw [hmap]; exact List.perm_insertionSort _ selected
  · rw [hmap]
    exact ((List.perm_insertionSort _ selected).nodup_iff).mpr hnd

/-- C1 witness: three urls, selection `[0, 2]`, everything succeeds. -/
theorem download_one_outcome_per_selected_index_witness :
    (∀ idx ∈ ([0, 2] : List ℕ), idx < (["a", "b", "c"] : List String).length) ∧
    ∃ outcomes s c r,
      download_videos ["a", "b", "c"] [0, 2] (fun _ => DlResult.ok true) =
        DlReport.finished outcomes s ([0, 2] : List ℕ).length c r ∧
      outcomes.length = ([0, 2] : List ℕ).length ∧
      (outcomes.map Outcome.idx).Perm [0, 2] ∧
      (outcomes.map Outcome.idx).Nodup :=
  ⟨by decide,
   download_one_outcome_per_selected_index ["a", "b", "c"] [0, 2]
     (fun _ => DlResult.ok true) (by decide) (by decide) (by decide)⟩

/-- C2: an item whose download call raises is caught and recorded as a
failed outcome with its message, and every other selected index is still
attempted — every selected index gets an outcome. -/
theorem download_continue_on_error
    (videoUrls : List String) (selected : List ℕ) (env : ℕ → DlResult)
    (idx0 : ℕ) (msg : String)
    (hne : selected ≠ []) (hlt : ∀ idx ∈ selected, idx < videoUrls.length)
    (hidx : idx0 ∈ selected) (hexn : env idx0 = DlResult.exn msg) :
    ∃ outcomes s c r,
      download_videos videoUrls selected env =
        DlReport.finished outcomes s selected.length c r ∧
      Outcome.mk idx0 (Status.error msg) ∈ outcomes ∧
      ∀ idx ∈ selected, ∃ o ∈ outcomes, o.idx = idx := by
  have hu : videoUrls ≠ [] := urls_ne_nil_of_selected videoUrls selected hne hlt
  have hmem : ∀ idx ∈ selected,
      itemOutcome env idx ∈ processItems videoUrls env
        (selected.insertionSort (· ≤ ·)) := by
    intro idx hin
    rw [processItems_eq_map]
    refine List.mem_map_of_mem (itemOutcome env) ?_
    rw [List.mem_filter]
    exact ⟨(List.mem_insertionSort (· ≤ ·)).mpr hin, by simpa using hlt idx hin⟩
  refine ⟨_, _, _, _, download_videos_run videoUrls selected env hu hne, ?_, ?_⟩
  · have h0 := hmem idx0 hidx
    have : itemOutcome env idx0 = Outcome.mk idx0 (Status.error msg) := by
      simp [itemOutcome, hexn]
    rwa [this] at h0
  · intro idx hin
    exact ⟨itemOutcome env idx, hmem idx hin, itemOutcome_idx env idx⟩

/-- C2 witness: three items, the middle one throws; the first and third
still get outcomes, and the middle one is recorded as failed. -/
theorem download_continue_on_error_witness :
    ((1 : ℕ) ∈ ([0, 1, 2] : List ℕ)) ∧
    ∃ outcomes s c r,
      download_videos ["a", "b", "c"] [0, 1, 2]
          (fun i => if i = 1 then DlResult.exn "boom" else DlResult.ok true) =
        DlReport.finished outcomes s ([0, 1, 2] : List ℕ).length c r ∧
      Outcome.mk 1 (Status.error "boom") ∈ outcomes ∧
      ∀ idx ∈ ([0, 1, 2] : List ℕ), ∃ o ∈ outcomes, o.idx = idx :=
  ⟨by decide,
   download_continue_on_error ["a", "b", "c"] [0, 1, 2]
     (fun i => if i = 1 then DlResult.exn "boom" else DlResult.ok true) 1 "boom"
     (by decide) (by decide) (by decide) rfl⟩

/-- C3: with all selected indices in range, the recorded outcome indices
are exactly the ascending sort of the selection, they are strictly
increasing, and any reordering of the selection produces the identical
report — processing order never depends on insertion order. -/
theorem download_ascending_index_order
    (videoUrls : List String) (selected : List ℕ) (env : ℕ → DlResult)
    (hnd : selected.Nodup) (hne : selected ≠ [])
    (hlt : ∀ idx ∈ selected, idx < videoUrls.length) :
    ∃ outcomes s c r,
      download_videos videoUrls selected env =
        DlReport.finished outcomes s selected.length c r ∧
      outcomes.map Outcome.idx = selected.insertionSort (· ≤ ·) ∧
      List.Sorted (· < ·) (outcomes.map Outcome.idx) ∧
      ∀ selected2 : List ℕ, selected2.Perm selected →
        download_videos videoUrls selected2 env =
          download_videos videoUrls selected env := by
  have hu : videoUrls ≠ [] := urls_ne_nil_of_selected videoUrls selected hne hlt
  have hmap : (processItems videoUrls env
      (selected.insertionSort (· ≤ ·))).map Outcome.idx =
      selected.insertionSort (· ≤ ·) := by
    rw [processItems_map_idx, insertionSort_all_in_range videoUrls selected hlt]
  refine ⟨_, _, _, _, download_videos_run videoUrls selected env hu hne, hmap, ?_, ?_⟩
  · rw [hmap]
    have hle : (selected.insertionSort (· ≤ ·)).Sorted (· ≤ ·) :=
      List.sorted_insertionSort _ selected
    have hnd' : (selected.insertionSort (· ≤ ·)).Nodup :=
      ((List.perm_insertionSort _ selected).nodup_iff).mpr hnd
    exact (hle.and hnd').imp fun h => lt_of_le_of_ne h.1 h.2
  · intro selected2 hperm
    have hne2 : selected2 ≠ [] := by
      intro h; subst h; exact hne hperm.symm.eq_nil
    have hsort : selected2.insertionSort (· ≤ ·) =
        selected.insertionSort (· ≤ ·) :=
      List.eq_of_perm_of_sorted
        (((List.perm_insertionSort _ selected2).trans hperm).trans
          (List.perm_insertionSort _ selected).symm)
        (List.sorted_insertionSort _ selected2)
        (List.sorted_insertionSort _ selected)
    rw [download_videos_run videoUrls selected2 env hu hne2,
      download_videos_run videoUrls selected env hu hne, hsort, hperm.length_eq]

/-- C3 witness: selection `[5, 1, 3]`; the recorded indices are
`[1, 3, 5]` in that order, and the permuted selection `[1, 3, 5]`
produces the identical report. -/
theorem download_ascending_index_order_witness :
    (([5, 1, 3] : List ℕ).insertionSort (· ≤ ·) = [1, 3, 5]) ∧
    ∃ outcomes s c r,
      download_videos ["a", "b", "c", "d", "e", "f"] [5, 1, 3]
          (fun _ => DlResult.ok true) =
        DlReport.finished outcomes s ([5, 1, 3] : List ℕ).length c r ∧
      outcomes.map Outcome.idx = ([5, 1, 3] : List ℕ).insertionSort (· ≤ ·) ∧
      List.Sorted (· < ·) (outcomes.map Outcome.idx) ∧
      ∀ selected2 : List ℕ, selected2.Perm [5, 1, 3] →
        download_videos ["a", "b", "c", "d", "e", "f"] selected2
            (fun _ => DlResult.ok true) =
          download_videos ["a", "b", "c", "d", "e", "f"] [5, 1, 3]
            (fun _ => DlResult.ok true) :=
  ⟨by decide,
   download_ascending_index_order ["a", "b", "c", "d", "e", "f"] [5, 1, 3]
     (fun _ => DlResult.ok true) (by decide) (by decide) (by decide)⟩

/-- C6: after a run over a non-empty selection, the terminal
classification is computed from the success count exactly as the spec
says: all succeeded → full success; zero succeeded (total positive) →
total failure; otherwise partial success naming `total - succeeded`
failures. -/
theorem download_terminal_classification
    (videoUrls : List String) (selected : List ℕ) (env : ℕ → DlResult)
    (h1 : videoUrls ≠ []) (h2 : selected ≠ []) :
    ∃ outcomes s r,
      download_videos videoUrls selected env =
        DlReport.finished outcomes s selected.length
          (classify s selected.length) r ∧
      (s = selected.length →
        classify s selected.length = Classification.fullSuccess) ∧
      (s = 0 → classify s selected.length = Classification.totalFailure) ∧
      (0 < s → s ≠ selected.length →
        classify s selected.length =
          Classification.partialSuccess (selected.length - s)) := by
  have hlen : selected.length ≠ 0 := by simp [List.length_eq_zero, h2]
  refine ⟨_, _, _, download_videos_run videoUrls selected env h1 h2, ?_, ?_, ?_⟩
  · intro h; simp [classify, h]
  · intro h; rw [h]
    simp [classify, Ne.symm hlen]
  · intro hpos hne'
    simp [classify, hne', hpos]

/-- C6 witness: two items, first succeeds, second's file is missing —
partial success with one failure. -/
theorem download_terminal_classification_witness :
    ∃ outcomes s r,
      download_videos ["a", "b"] [0, 1]
          (fun i => if i = 0 then DlResult.ok true else DlResult.ok false) =
        DlReport.finished outcomes s ([0, 1] : List ℕ).length
          (classify s ([0, 1] : List ℕ).length) r ∧
      (s = ([0, 1] : List ℕ).length →
        classify s ([0, 1] : List ℕ).length = Classification.fullSuccess) ∧
      (s = 0 →
        classify s ([0, 1] : List ℕ).length = Classification.totalFailure) ∧
      (0 < s → s ≠ ([0, 1] : List ℕ).length →
        classify s ([0, 1] : List ℕ).length =
          Classification.partialSuccess (([0, 1] : List ℕ).length - s)) :=
  download_terminal_classification ["a", "b"] [0, 1]
    (fun i => if i = 0 then DlResult.ok true else DlResult.ok false)
    (by decide) (by decide)

/-- C7: in any finished batch, an outcome is a success exactly when its
download call returned normally and the reported file exists on disk; a
normal return without a materialized file is always recorded as the
file-not-created failure. -/
theorem download_success_iff_file_exists
    (videoUrls : List String) (selected : List ℕ) (env : ℕ → DlResult)
    (outcomes : List Outcome) (s t : ℕ) (c : Classification) (r : Bool)
    (h : download_videos videoUrls selected env =
      DlReport.finished outcomes s t c r) :
    ∀ o ∈ outcomes,
      (o.status = Status.success ↔ env o.idx = DlResult.ok true) ∧
      (env o.idx = DlResult.ok false → o.status = Status.fileNotCreated) := by
  have h1 : videoUrls ≠ [] := by
    intro hv; subst hv
    rw [show download_videos [] selected env = DlReport.noVideos from rfl] at h
    exact DlReport.noConfusion h
  have h2 : selected ≠ [] := by
    intro hv; subst hv
    rw [download_videos] at h
    by_cases he : (videoUrls.isEmpty : Bool) <;> simp [he] at h
  rw [download_videos_run videoUrls selected env h1 h2] at h
  have houtc : outcomes =
      processItems videoUrls env (selected.insertionSort (· ≤ ·)) := by
    have := (DlReport.finished.injEq _ _ _ _ _ _ _ _ _ _).mp h.symm
    exact this.1
  subst houtc
  intro o ho
  rw [processItems_eq_map] at ho
  obtain ⟨j, _, rfl⟩ := List.mem_map.mp ho
  rw [itemOutcome_idx]
  cases henv : env j with
  | ok fe => cases fe <;> simp [itemOutcome, henv]
  | exn m => simp [itemOutcome, henv]

/-- C7 witness: one call returns with the file present, the other
returns with no file; only the first outcome is a success. -/
theorem download_success_iff_file_exists_witness :
    (download_videos ["a", "b"] [0, 1]
        (fun i => if i = 0 then DlResult.ok true else DlResult.ok false) =
      DlReport.finished
        [⟨0, Status.success⟩, ⟨1, Status.fileNotCreated⟩] 1 2
        (Classification.partialSuccess 1) true) ∧
    ∀ o ∈ ([⟨0, Status.success⟩, ⟨1, Status.fileNotCreated⟩] : List Outcome),
      (o.status = Status.success ↔
        (fun i => if i = 0 then DlResult.ok true else DlResult.ok false) o.idx =
          DlResult.ok true) ∧
      ((fun i => if i = 0 then DlResult.ok true else DlResult.ok false) o.idx =
          DlResult.ok false → o.status = Status.fileNotCreated) :=
  ⟨by decide,
   download_success_iff_file_exists ["a", "b"] [0, 1]
     (fun i => if i = 0 then DlResult.ok true else DlResult.ok false)
     [⟨0, Status.success⟩, ⟨1, Status.fileNotCreated⟩] 1 2
     (Classification.partialSuccess 1) true (by decide)⟩

/-- C8 counterexample: with one video url and selection `{0, 1}`, index
1 violates the stated precondition, yet `download_videos` does not
return an immediate error report — it processes index 0, records its
outcome, and finishes with a partial-success summary. -/
theorem download_oob_not_aborted_cx :
    ((1 : ℕ) ∈ ([0, 1] : List ℕ)) ∧
    ¬ (1 : ℕ) < (["u"] : List String).length ∧
    download_videos ["u"] [0, 1] (fun _ => DlResult.ok true) =
      DlReport.finished [⟨0, Status.success⟩] 1 2
        (Classification.partialSuccess 1) true := by decide

/-- C8 (amended): only the two emptiness guards abort with an immediate
error and zero outcomes — an empty video-url list (line 127) or an empty
selection (lines 178-180).  An out-of-range selected index does not
abort the batch; it is silently skipped while in-range indices are still
processed (the skip behaviour is claim C10). -/
theorem download_empty_guards
    (videoUrls : List String) (selected : List ℕ) (env : ℕ → DlResult) :
    (videoUrls = [] →
      download_videos videoUrls selected env = DlReport.noVideos) ∧
    (videoUrls ≠ [] → selected = [] →
      download_videos videoUrls selected env = DlReport.noSelection) := by
  constructor
  · intro h; subst h; rfl
  · intro hv h; subst h
    have hv' : videoUrls.isEmpty = false := by simp [List.isEmpty_iff, hv]
    simp [download_videos, hv']

/-- C8 witness: both guards at concrete inputs. -/
theorem download_empty_guards_witness :
    download_videos [] [0] (fun _ => DlResult.ok true) = DlReport.noVideos ∧
    download_videos ["u"] [] (fun _ => DlResult.ok true) =
      DlReport.noSelection :=
  ⟨(download_empty_guards [] [0] (fun _ => DlResult.ok true)).1 rfl,
   (download_empty_guards ["u"] [] (fun _ => DlResult.ok true)).2
     (by decide) rfl⟩

/-- C10: a selected index that is out of range is silently skipped — the
batch still finishes (no error report), no outcome carries that index,
the outcome indices are exactly the in-range part of the sorted
selection — yet the total count in the summary is the full cardinality
of the selection, so the success count stays strictly below it and the
classification can never be full success: the skipped index is reported
as if it were a failed attempt. -/
theorem download_skips_out_of_range
    (videoUrls : List String) (selected : List ℕ) (env : ℕ → DlResult)
    (idx0 : ℕ) (h1 : videoUrls ≠ []) (hidx : idx0 ∈ selected)
    (hge : videoUrls.length ≤ idx0) :
    ∃ outcomes s c r,
      download_videos videoUrls selected env =
        DlReport.finished outcomes s selected.length c r ∧
      (∀ o ∈ outcomes, o.idx ≠ idx0) ∧
      outcomes.map Outcome.idx =
        ((selected.insertionSort (· ≤ ·)).filter
          fun idx => decide (idx < videoUrls.length)) ∧
      s < selected.length ∧
      c ≠ Classification.fullSuccess := by
  have hne : selected ≠ [] := List.ne_nil_of_mem hidx
  have hmap : (processItems videoUrls env
      (selected.insertionSort (· ≤ ·))).map Outcome.idx =
      (selected.insertionSort (· ≤ ·)).filter
        fun idx => decide (idx < videoUrls.length) :=
    processItems_map_idx videoUrls env _
  have hs : countSuccess (processItems videoUrls env
      (selected.insertionSort (· ≤ ·))) < selected.length := by
    have hlen1 : (processItems videoUrls env
        (selected.insertionSort (· ≤ ·))).length <
        (selected.insertionSort (· ≤ ·)).length := by
      have := congrArg List.length hmap
      rw [List.length_map] at this
      rw [this]
      exact List.length_filter_lt_length_iff_exists.mpr
        ⟨idx0, (List.mem_insertionSort (· ≤ ·)).mpr hidx,
          by simpa using Nat.not_lt.mpr hge⟩
    calc countSuccess (processItems videoUrls env
          (selected.insertionSort (· ≤ ·)))
        ≤ (processItems videoUrls env
            (selected.insertionSort (· ≤ ·))).length :=
          List.countP_le_length _
      _ < (selected.insertionSort (· ≤ ·)).length := hlen1
      _ = selected.length := List.length_insertionSort _ selected
  refine ⟨_, _, _, _, download_videos_run videoUrls selected env h1 hne,
    ?_, hmap, hs, ?_⟩
  · intro o ho
    have : o.idx ∈ (selected.insertionSort (· ≤ ·)).filter
        fun idx => decide (idx < videoUrls.length) := by
      rw [← hmap]; exact List.mem_map_of_mem Outcome.idx ho
    have hlt := of_decide_eq_true (List.mem_filter.mp this).2
    exact fun hEq => absurd (hEq ▸ hlt) (Nat.not_lt.mpr hge)
  · have hne' : countSuccess (processItems videoUrls env
        (selected.insertionSort (· ≤ ·))) ≠ selected.length :=
      Nat.ne_of_lt hs
    simp only [classify, if_neg hne']
    split <;> simp

/-- C10 witness: one url, selection `[0, 5]`: index 5 is skipped with no
outcome, total stays 2, and the run classifies as partial success. -/
theorem download_skips_out_of_range_witness :
    ((5 : ℕ) ∈ ([0, 5] : List ℕ)) ∧
    ∃ outcomes s c r,
      download_videos ["u"] [0, 5] (fun _ => DlResult.ok true) =
        DlReport.finished outcomes s ([0, 5] : List ℕ).length c r ∧
      (∀ o ∈ outcomes, o.idx ≠ 5) ∧
      outcomes.map Outcome.idx =
        ((([0, 5] : List ℕ).insertionSort (· ≤ ·)).filter
          fun idx => decide (idx < (["u"] : List String).length)) ∧
      s < ([0, 5] : List ℕ).length ∧
      c ≠ Classification.fullSuccess :=
  ⟨by decide,
   download_skips_out_of_range ["u"] [0, 5] (fun _ => DlResult.ok true) 5
     (by decide) (by decide) (by decide)⟩

/-- C9 counterexample: a state with index 0 selected; replacing the
playlist entries (the assignment of lines 485-486) leaves index 0
selected — the selection is not reset to empty as the claim requires. -/
theorem selection_not_reset_on_replace_cx :
    (store_playlist
        { selected_videos := [0],
          video_data := [⟨0, "old", "Old title", "00:10", "u0"⟩],
          video_urls := ["u0"] }
        [⟨0, "n1", "New 1", "00:05", "n1u"⟩, ⟨1, "n2", "New 2", "00:07", "n2u"⟩]
        ["n1u", "n2u"]).selected_videos = [0] ∧
    ([0] : List ℕ) ≠ ([] : List ℕ) :=
  ⟨rfl, by decide⟩

/-- C9 (amended): replacing the playlist entry list leaves the selection
unchanged — the stored-playlist transition writes only `video_data` and
`video_urls`; the selection is modified solely by the select-all,
clear-all and form-submit operations. -/
theorem store_playlist_preserves_selection
    (s : SessionState) (data : List VideoData) (urls : List String) :
    (store_playlist s data urls).selected_videos = s.selected_videos ∧
    (store_playlist s data urls).video_data = data ∧
    (store_playlist s data urls).video_urls = urls :=
  ⟨rfl, rfl, rfl⟩

/-- C5 counterexample: the `1080p` tier's format string is the bare
ceiling `best[height<=1080]` — a single alternative with no fallback to
best available. -/
theorem quality_fallback_cx :
    select_format false true "1080p" = "best[height<=1080]" ∧
    hasBestFallback (select_format false true "1080p") = false := by decide

/-- C5 (amended): in video mode only the `best` tier (and the default
used for an unrecognized quality string) carries a trailing
`/best`-style fallback; the explicit `1080p`, `720p`, `480p` and `360p`
tiers are bare ceilings with no fallback alternative. -/
theorem quality_fallback_only_best :
    ∀ ff : Bool,
      hasBestFallback (select_format false ff "best") = true ∧
      hasBestFallback (select_format false ff "1080p") = false ∧
      hasBestFallback (select_format false ff "720p") = false ∧
      hasBestFallback (select_format false ff "480p") = false ∧
      hasBestFallback (select_format false ff "360p") = false ∧
      hasBestFallback (select_format false ff "anything else") = true := by
  decide

/-! ### The URL validator against the documented shape -/

lemma dropLit_eq_some {p s r : List Char} :
    dropLit p s = some r ↔ s = p ++ r := by
  induction p generalizing s with
  | nil => simp [dropLit]
  | cons a ps ih =>
      cases s with
      | nil => simp [dropLit]
      | cons b bs =>
          by_cases hab : a = b
          · subst hab
            simp [dropLit, ih]
          · constructor
            · intro h
              rw [dropLit, if_neg hab] at h
              exact Option.noConfusion h
            · intro h
              exact absurd ((List.cons.inj h).1.symm) hab

lemma matchSeg_eq_true {k : List Char → Bool} {p : String} {s : List Char} :
    matchSeg k p s = true ↔ ∃ r, s = p.data ++ r ∧ k r = true := by
  unfold matchSeg
  cases hd : dropLit p.data s with
  | none =>
      constructor
      · intro h; exact Bool.noConfusion h
      · rintro ⟨r, hr, _⟩
        have hsome := dropLit_eq_some.mpr hr
        rw [hd] at hsome
        exact Option.noConfusion hsome
  | some r0 =>
      have hs : s = p.data ++ r0 := dropLit_eq_some.mp hd
      constructor
      · intro h; exact ⟨r0, hs, h⟩
      · rintro ⟨r, hr, hk⟩
        have h2 : p.data ++ r = p.data ++ r0 := by rw [← hr]; exact hs
        exact List.append_cancel_left h2 ▸ hk

lemma matchListId_eq_true {s : List Char} :
    matchListId s = true ↔ ∃ c rest, isFormatChar c = true ∧ s = c :: rest := by
  cases s with
  | nil => simp [matchListId]
  | cons c cs =>
      simp only [matchListId]
      constructor
      · intro h; exact ⟨c, cs, h, rfl⟩
      · rintro ⟨c', rest', hc, hEq⟩
        rw [(List.cons.inj hEq).1]
        exact hc

lemma is_valid_iff (url : String) :
    is_valid_playlist_url url = true ↔ regex_playlist_shape url := by
  simp only [is_valid_playlist_url, matchWww, matchHost, matchAfterHost,
    List.any_eq_true, matchSeg_eq_true, matchListId_eq_true,
    regex_playlist_shape]
  constructor
  · rintro ⟨p, hp, r1, hurl, w, hw, r2, rfl, h, hh, r3, rfl, r4, rfl, c, rest, hc, rfl⟩
    refine ⟨p, hp, w, hw, h, hh, c, rest, hc, ?_⟩
    rw [hurl]; simp [List.append_assoc]
  · rintro ⟨p, hp, w, hw, h, hh, c, rest, hc, hurl⟩
    refine ⟨p, hp,
      w.data ++ h.data ++ ("/playlist?list=").data ++ c :: rest, ?_, w, hw,
      h.data ++ ("/playlist?list=").data ++ c :: rest, ?_, h, hh,
      ("/playlist?list=").data ++ c :: rest, ?_, c :: rest, rfl, c, rest, hc, rfl⟩
    · rw [hurl]; simp [List.append_assoc]
    · simp [List.append_assoc]
    · simp [List.append_assoc]

/-- C4 counterexample: `youtube/playlist?list=x` has neither host
`youtube.com` nor `youtu.be` — it does not match the documented shape —
yet the validator accepts it, because the regex fragment `youtu\.?be`
with its optional dot also matches the bare string `youtube`. -/
theorem playlist_url_regex_cx :
    is_valid_playlist_url "youtube/playlist?list=x" = true ∧
    spec_playlist_url_shape "youtube/playlist?list=x" = false := by decide

/-- C4 (amended): the validator returns true exactly for strings with a
prefix of the shape: optional `http`/`https` scheme, optional `www.`,
host `youtube.com`, `youtu.be` or bare `youtube` (from the optional dot
in `youtu\.?be`), then `/playlist?list=` and at least one
alphanumeric/`_`/`-` character; anything may follow (`re.match` has no
end anchor).  The spec's two examples behave as documented. -/
theorem playlist_url_regex_characterization :
    (∀ url, is_valid_playlist_url url = true ↔ regex_playlist_shape url) ∧
    is_valid_playlist_url "https://www.youtube.com/playlist?list=PL123" = true ∧
    is_valid_playlist_url "https://www.youtube.com/watch?v=abc123" = false :=
  ⟨is_valid_iff, by decide, by decide⟩

end YTLoader
